import Mathlib

/-!
Shallow embedding of `.github/scripts/create-issues.py`, a script that
parses `CODE_REVIEW_ISSUES.md` into issue records and creates GitHub
issues, gated by a dry-run flag and a numeric range filter.

Python string primitives are modelled over ASCII text as functions on
`List Char` / `String`; the fixed regular expression of
`parse_issues_file` is modelled by a specialised backtracking matcher
with the same semantics (greedy character classes pinned by literal
delimiters, lazy dot-all groups scanning delimiter occurrences left to
right); `main` is modelled as a pure function of the environment, the
file content and a remote-API oracle, returning the process outcome, the
trace of file/remote events and the printed counts.
-/

namespace CreateIssues

set_option maxRecDepth 16384

/-- Python whitespace predicate used by `str.strip` (ASCII fragment). -/
def pyIsSpace (c : Char) : Bool :=
  c = ' ' || c = '\t' || c = '\n' || c = '\r' || c = '\x0b' || c = '\x0c'

/-- Python `str.strip()` on a character list: drop whitespace at both ends. -/
def pyStripL (l : List Char) : List Char :=
  ((l.dropWhile pyIsSpace).reverse.dropWhile pyIsSpace).reverse

/-- Python `str.strip()` on strings. -/
def pyStrip (s : String) : String :=
  ⟨pyStripL s.data⟩

/-- Python `str.split(sep)` for a one-character separator: split at every
occurrence, keeping empty pieces (`"".split(',') == [""]`). -/
def pySplitL (sep : Char) : List Char → List (List Char)
  | [] => [[]]
  | c :: cs =>
    if c = sep then [] :: pySplitL sep cs
    else
      match pySplitL sep cs with
      | [] => [[c]]
      | h :: t => (c :: h) :: t

/-- ASCII lower-casing of one character, as Python `str.lower` acts on ASCII. -/
def pyLowerChar (c : Char) : Char :=
  if 'A' ≤ c ∧ c ≤ 'Z' then Char.ofNat (c.toNat + 32) else c

/-- Python `str.lower()` (ASCII fragment). -/
def pyLower (s : String) : String :=
  ⟨s.data.map pyLowerChar⟩

/-- Numeric value of a digit string (most significant first). -/
def natOfDigits (l : List Char) : Nat :=
  l.foldl (fun acc c => 10 * acc + (c.toNat - 48)) 0

/-- Checker for the tail of a Python integer body after its first digit:
digits with single underscores allowed only between digits. -/
def pyIntRest : List Char → Bool
  | [] => true
  | '_' :: rest =>
    match rest with
    | [] => false
    | c :: cs => c.isDigit && pyIntRest cs
  | c :: cs => c.isDigit && pyIntRest cs

/-- Checker for a Python integer body: nonempty, starts with a digit,
underscores only between digits. -/
def pyIntBody : List Char → Bool
  | [] => false
  | c :: cs => c.isDigit && pyIntRest cs

/-- Python `int(s)`: surrounding whitespace stripped, optional sign, then
digits with optional single underscores between digits; `none` models the
`ValueError` raised on any other input. -/
def pyInt (s : String) : Option Int :=
  let t := pyStripL s.data
  match t with
  | '+' :: r => if pyIntBody r then some (natOfDigits (r.filter (· ≠ '_'))) else none
  | '-' :: r => if pyIntBody r then some (-(natOfDigits (r.filter (· ≠ '_')) : Int)) else none
  | r => if pyIntBody r then some (natOfDigits (r.filter (· ≠ '_'))) else none

/-! The parser.  The script extracts sections with `re.finditer` over the
fixed pattern

  `### Issue (\d+): ([^\n]+)\n**Title**: ([^\n]+)\n\n**Description**:\n(.*?)`
  `\n\n**Goals**:\n(.*?)\n\n**Files to modify**:\n(.*?)`
  `\n\n**Acceptance Criteria**:\n(.*?)\n\n**Labels**: ([^\n]+)`
  `\n**Estimated effort**: ([^\n]+)`

compiled with `re.DOTALL`.  The greedy `\d+` and `[^\n]+` groups are each
followed by a literal that starts with a non-digit or a newline, so they
deterministically take the maximal run; each lazy `(.*?)` group scans the
occurrences of its following literal delimiter left to right and commits
to the first one after which the rest of the pattern matches. -/

/-- Match a literal, returning the remaining suffix. -/
def lit (pat : List Char) (cs : List Char) : Option (List Char) :=
  if pat.isPrefixOf cs then some (cs.drop pat.length) else none

/-- Greedy nonempty run of characters satisfying `p` (the maximal run, as
taken by `\d+` or `[^\n]+` pinned by the following literal). -/
def takeWhile1 (p : Char → Bool) (cs : List Char) : Option (List Char × List Char) :=
  let t := cs.takeWhile p
  if t.isEmpty then none else some (t, cs.drop t.length)

/-- Lazy dot-all group followed by a literal delimiter: try each occurrence
of `delim` left to right, commit to the first after which the continuation
`k` succeeds; the group is the text before that occurrence. -/
def tryDelim {α : Type} (delim : List Char) (k : List Char → Option α) :
    List Char → Option (List Char × α)
  | [] => none
  | c :: rest =>
    if delim.isPrefixOf (c :: rest) then
      match k ((c :: rest).drop delim.length) with
      | some r => some ([], r)
      | none => (tryDelim delim k rest).map (fun p => (c :: p.1, p.2))
    else
      (tryDelim delim k rest).map (fun p => (c :: p.1, p.2))

/-- The nine capture groups of the pattern, in order. -/
structure Groups where
  num : List Char
  shortTitle : List Char
  title : List Char
  description : List Char
  goals : List Char
  files : List Char
  acceptance : List Char
  labelsStr : List Char
  effort : List Char
  deriving Repr, DecidableEq

/-- Deterministic tail of the pattern after the `**Labels**: ` literal:
the labels line, the estimated-effort literal and the effort line. -/
def matchTail (cs : List Char) : Option ((List Char × List Char) × List Char) := do
  let (labels, cs1) ← takeWhile1 (· ≠ '\n') cs
  let cs2 ← lit "\n**Estimated effort**: ".data cs1
  let (effort, cs3) ← takeWhile1 (· ≠ '\n') cs2
  some ((labels, effort), cs3)

/-- Acceptance-criteria group: lazy up to `**Labels**: `. -/
def kAcceptance : List Char → Option (List Char × ((List Char × List Char) × List Char)) :=
  tryDelim "\n\n**Labels**: ".data matchTail

/-- Files group: lazy up to `**Acceptance Criteria**`. -/
def kFiles : List Char →
    Option (List Char × (List Char × ((List Char × List Char) × List Char))) :=
  tryDelim "\n\n**Acceptance Criteria**:\n".data kAcceptance

/-- Goals group: lazy up to `**Files to modify**`. -/
def kGoals : List Char →
    Option (List Char × (List Char × (List Char × ((List Char × List Char) × List Char)))) :=
  tryDelim "\n\n**Files to modify**:\n".data kFiles

/-- Description group: lazy up to `**Goals**`. -/
def kDescription : List Char →
    Option (List Char ×
      (List Char × (List Char × (List Char × ((List Char × List Char) × List Char))))) :=
  tryDelim "\n\n**Goals**:\n".data kGoals

/-- Attempt to match the whole pattern at the start of `cs`; on success
return the captured groups and the suffix after the match. -/
def matchIssue (cs : List Char) : Option (Groups × List Char) := do
  let cs1 ← lit "### Issue ".data cs
  let (num, cs2) ← takeWhile1 Char.isDigit cs1
  let cs3 ← lit ": ".data cs2
  let (shortTitle, cs4) ← takeWhile1 (· ≠ '\n') cs3
  let cs5 ← lit "\n**Title**: ".data cs4
  let (title, cs6) ← takeWhile1 (· ≠ '\n') cs5
  let cs7 ← lit "\n\n**Description**:\n".data cs6
  let (description, (goals, (files, (acceptance, ((labelsStr, effort), rest))))) ←
    kDescription cs7
  some (⟨num, shortTitle, title, description, goals, files, acceptance, labelsStr, effort⟩,
    rest)

/-- One parsed issue record, as built in `parse_issues_file`. -/
structure IssueRecord where
  number : Nat
  short_title : String
  title : String
  description : String
  goals : String
  files : String
  acceptance : String
  labels : List String
  effort : String
  deriving Repr, DecidableEq

/-- The labels list: `[l.strip() for l in labels_str.split(',')]`. -/
def splitLabels (s : String) : List String :=
  (pySplitL ',' s.data).map (fun p => ⟨pyStripL p⟩)

/-- Build the dictionary appended per match in `parse_issues_file`: each
captured group is `.strip()`-ped, the number converted with `int`, the
labels line split on commas with each piece stripped. -/
def recordOfGroups (g : Groups) : IssueRecord :=
  { number := natOfDigits g.num
    short_title := ⟨pyStripL g.shortTitle⟩
    title := ⟨pyStripL g.title⟩
    description := ⟨pyStripL g.description⟩
    goals := ⟨pyStripL g.goals⟩
    files := ⟨pyStripL g.files⟩
    acceptance := ⟨pyStripL g.acceptance⟩
    labels := splitLabels ⟨pyStripL g.labelsStr⟩
    effort := ⟨pyStripL g.effort⟩ }

/-- `re.finditer` scan: attempt a match at every position left to right;
on success emit the record and continue after the match (non-overlapping
matches).  Fuel bounds the recursion; every match consumes at least the
head literal, so `cs.length` fuel is never exhausted. -/
def findAllAux : Nat → List Char → List IssueRecord
  | 0, _ => []
  | _ + 1, [] => []
  | fuel + 1, c :: rest =>
    match matchIssue (c :: rest) with
    | some (g, after) => recordOfGroups g :: findAllAux fuel after
    | none => findAllAux fuel rest

/-- `parse_issues_file`, on the file content: the ordered list of records
extracted by scanning the fixed pattern over the document. -/
def parse_issues_file (content : String) : List IssueRecord :=
  findAllAux content.data.length content.data

/-- `create_issue_body`: the f-string template rendering one record into
the body submitted to the tracker. -/
def create_issue_body (issue : IssueRecord) : String :=
  "## Description\n\n" ++ issue.description ++
  "\n\n## Goals\n\n" ++ issue.goals ++
  "\n\n## Files to modify\n\n" ++ issue.files ++
  "\n\n## Acceptance Criteria\n\n" ++ issue.acceptance ++
  "\n\n---\n**Estimated Effort**: " ++ issue.effort ++
  "\n**Related to**: Code Review 2025-10-24\n"

/-! The runner.  Environment, remote API and observable behaviour of
`main` are modelled explicitly: the API is an oracle giving the result of
each remote operation, and the run produces a process outcome, the
ordered trace of file/remote events, and the counts the script prints. -/

/-- The environment variables read by `main`. -/
structure Env where
  dryRun? : Option String := none
  startIssue? : Option String := none
  endIssue? : Option String := none
  token? : Option String := none
  repo? : Option String := none

/-- Observable events of a run: the input-file read and the remote calls
(`get_repo`, `get_labels`, `create_label`, `create_issue`). -/
inductive Event where
  | readFile
  | getRepo
  | listLabels
  | createLabel (name : String)
  | createIssue (title : String) (body : String) (labels : List String)
  deriving Repr, DecidableEq

/-- Remote events are everything except the local file read. -/
def Event.isRemote : Event → Bool
  | .readFile => false
  | _ => true

/-- Event selector for issue-creation calls. -/
def Event.isCreateIssue : Event → Bool
  | .createIssue _ _ _ => true
  | _ => false

/-- Oracle for the remote API: results of `get_repo`, `repo.get_labels`,
`repo.create_label` and `repo.create_issue` (`Except` errors model raised
exceptions; `create_issue` returns the created issue number). -/
structure Api where
  getRepo : Except String Unit
  listLabels : Except String (List String)
  createLabel : String → Except String Unit
  createIssue : String → String → List String → Except String Nat

/-- Process outcome: `sys.exit` code (0 for falling off the end of `main`)
or an unhandled Python exception. -/
inductive Outcome where
  | exitCode (n : Nat)
  | pyError (msg : String)
  deriving Repr, DecidableEq

/-- Observable result of one run: the outcome, the event trace, the
parsed/filtered counts printed before the loop, and the final live-mode
summary `(created, filtered)` when it is printed. -/
structure RunResult where
  outcome : Outcome
  events : List Event
  parsed : Option Nat
  filtered : Option Nat
  summary : Option (Nat × Nat)
  deriving Repr, DecidableEq

/-- Python truthiness test `not os.getenv(...)` on an optional string:
true when the variable is unset (`None`) or set to the empty string. -/
def pyFalsy (v : Option String) : Bool :=
  match v with
  | none => true
  | some s => s == ""

/-- The dry-run flag: `os.getenv('DRY_RUN', 'true').lower() == 'true'`. -/
def dryRunFlag (v : Option String) : Bool :=
  pyLower (v.getD "true") == "true"

/-- The range filter of `main`:
`[issue for issue in issues if start_issue <= issue['number'] <= end_issue]`. -/
def filterRange (startI endI : Int) (issues : List IssueRecord) : List IssueRecord :=
  issues.filter (fun i => decide (startI ≤ (i.number : Int)) && decide ((i.number : Int) ≤ endI))

/-- The per-issue label loop: create each label not in the known set with
the default color, adding it to the set; a `create_label` error is not
caught and aborts the run. -/
def ensureLabels (api : Api) (existing : List String) :
    List String → List Event × Except String (List String)
  | [] => ([], .ok existing)
  | l :: ls =>
    if existing.contains l then ensureLabels api existing ls
    else
      match api.createLabel l with
      | .error e => ([.createLabel l], .error e)
      | .ok _ =>
        (.createLabel l :: (ensureLabels api (existing ++ [l]) ls).1,
          (ensureLabels api (existing ++ [l]) ls).2)

/-- The live creation loop over the filtered records: render the body,
create missing labels (errors propagate), then `create_issue` inside
`try`/`except` — a creation error is logged and the loop continues; the
returned count is the number of successful creations. -/
def processIssues (api : Api) (existing : List String) :
    List IssueRecord → List Event × Except String Nat
  | [] => ([], .ok 0)
  | i :: rest =>
    match (ensureLabels api existing i.labels).2 with
    | .error e => ((ensureLabels api existing i.labels).1, .error e)
    | .ok existing' =>
      match api.createIssue i.title (create_issue_body i) i.labels with
      | .ok _ =>
        ((ensureLabels api existing i.labels).1 ++
            Event.createIssue i.title (create_issue_body i) i.labels ::
              (processIssues api existing' rest).1,
          (processIssues api existing' rest).2.map (· + 1))
      | .error _ =>
        ((ensureLabels api existing i.labels).1 ++
            Event.createIssue i.title (create_issue_body i) i.labels ::
              (processIssues api existing' rest).1,
          (processIssues api existing' rest).2)

/-- `main`: read configuration (an invalid `START_ISSUE`/`END_ISSUE`
integer raises before the file is read), parse the file, filter by range;
in dry-run mode only report; in live mode require `GITHUB_TOKEN` and
`GITHUB_REPOSITORY` (else `sys.exit(1)`), fetch the repository and its
labels, run the creation loop and print the summary. -/
def mainRun (env : Env) (content : String) (api : Api) : RunResult :=
  let dry := dryRunFlag env.dryRun?
  match pyInt (env.startIssue?.getD "1") with
  | none => ⟨.pyError "invalid literal for int", [], none, none, none⟩
  | some startI =>
    match pyInt (env.endIssue?.getD "20") with
    | none => ⟨.pyError "invalid literal for int", [], none, none, none⟩
    | some endI =>
      let issues := parse_issues_file content
      let filtered := filterRange startI endI issues
      if dry then
        ⟨.exitCode 0, [.readFile], some issues.length, some filtered.length, none⟩
      else
        if pyFalsy env.token? then
          ⟨.exitCode 1, [.readFile], some issues.length, some filtered.length, none⟩
        else
          if pyFalsy env.repo? then
            ⟨.exitCode 1, [.readFile], some issues.length, some filtered.length, none⟩
          else
            match api.getRepo with
            | .error e =>
              ⟨.pyError e, [.readFile, .getRepo], some issues.length, some filtered.length,
                none⟩
            | .ok _ =>
              match api.listLabels with
              | .error e =>
                ⟨.pyError e, [.readFile, .getRepo, .listLabels], some issues.length,
                  some filtered.length, none⟩
              | .ok existing =>
                match (processIssues api existing filtered).2 with
                | .error e =>
                  ⟨.pyError e,
                    .readFile :: .getRepo :: .listLabels ::
                      (processIssues api existing filtered).1,
                    some issues.length, some filtered.length, none⟩
                | .ok n =>
                  ⟨.exitCode 0,
                    .readFile :: .getRepo :: .listLabels ::
                      (processIssues api existing filtered).1,
                    some issues.length, some filtered.length, some (n, filtered.length)⟩

/-- Whether an `Except` result is a success. -/
def exceptOk {ε α : Type} : Except ε α → Bool
  | .ok _ => true
  | .error _ => false

/-! Concrete sample inputs used to instantiate the theorems below. -/

/-- An API oracle on which every remote call succeeds. -/
def apiOk : Api :=
  { getRepo := .ok ()
    listLabels := .ok []
    createLabel := fun _ => .ok ()
    createIssue := fun _ _ _ => .ok 1 }

/-- An API oracle whose `create_issue` fails exactly on title `T2`. -/
def apiFailT2 : Api :=
  { getRepo := .ok ()
    listLabels := .ok []
    createLabel := fun _ => .ok ()
    createIssue := fun t _ _ => if t = "T2" then .error "boom" else .ok 10 }

/-- A live-mode environment with token and repository set. -/
def envLive : Env :=
  { dryRun? := some "false", token? := some "tok", repo? := some "owner/repo" }

/-- A sample record with number 3. -/
def rec3 : IssueRecord :=
  { number := 3, short_title := "s", title := "t", description := "d", goals := "g"
    files := "f", acceptance := "a", labels := ["l"], effort := "e" }

/-- A document with two well-formed sections, titles `T1` and `T2`. -/
def docTwo : String :=
  "### Issue 1: a\n**Title**: T1\n\n**Description**:\nd1\n\n**Goals**:\ng1\n\n**Files to modify**:\nf1\n\n**Acceptance Criteria**:\nc1\n\n**Labels**: l1\n**Estimated effort**: e1\n\n### Issue 2: b\n**Title**: T2\n\n**Description**:\nd2\n\n**Goals**:\ng2\n\n**Files to modify**:\nf2\n\n**Acceptance Criteria**:\nc2\n\n**Labels**: l2\n**Estimated effort**: e2\n"

/-- A document whose labels line `bug,,` has empty comma pieces. -/
def docEmptyLabels : String :=
  "### Issue 4: b\n**Title**: T4\n\n**Description**:\nD4\n\n**Goals**:\nG4\n\n**Files to modify**:\nF4\n\n**Acceptance Criteria**:\nA4\n\n**Labels**: bug,,\n**Estimated effort**: 1 day\n"

/-- A section block whose description field ` Z` has a leading space. -/
def blockSpacedDesc : String :=
  "### Issue 1: S\n**Title**: T\n\n**Description**:\n Z\n\n**Goals**:\nG\n\n**Files to modify**:\nF\n\n**Acceptance Criteria**:\nA\n\n**Labels**: l\n**Estimated effort**: e"

/-- The capture groups of a small fully-trimmed section block. -/
def groupsGood : Groups :=
  { num := "1".data, shortTitle := "S".data, title := "T".data, description := "d".data
    goals := "g".data, files := "f".data, acceptance := "a".data, labelsStr := "l".data
    effort := "e".data }

/-- The fully-trimmed section block capturing `groupsGood`. -/
def blockGood : String :=
  "### Issue 1: S\n**Title**: T\n\n**Description**:\nd\n\n**Goals**:\ng\n\n**Files to modify**:\nf\n\n**Acceptance Criteria**:\na\n\n**Labels**: l\n**Estimated effort**: e"

/-! General lemmas about the Python string helpers and the parser. -/

theorem pySplitL_ne_nil (sep : Char) (l : List Char) : pySplitL sep l ≠ [] := by
  induction l with
  | nil => simp [pySplitL]
  | cons c cs ih =>
    simp only [pySplitL]
    split
    · simp
    · cases h : pySplitL sep cs with
      | nil => exact absurd h ih
      | cons a t => simp

theorem pySplitL_length (sep : Char) (l : List Char) :
    (pySplitL sep l).length = l.count sep + 1 := by
  induction l with
  | nil => simp [pySplitL]
  | cons c cs ih =>
    simp only [pySplitL]
    by_cases h : c = sep
    · subst h
      simp [List.count_cons, ih]
    · simp only [if_neg h]
      cases hp : pySplitL sep cs with
      | nil => exact absurd hp (pySplitL_ne_nil sep cs)
      | cons a t =>
        rw [hp] at ih
        simp only [List.length_cons] at ih ⊢
        simp [List.count_cons, Ne.symm h, ih]

theorem pyStripL_eq_nil_iff (l : List Char) :
    pyStripL l = [] ↔ ∀ c ∈ l, pyIsSpace c := by
  unfold pyStripL
  rw [List.reverse_eq_nil_iff, List.dropWhile_eq_nil_iff]
  constructor
  · intro h c hc
    rcases List.mem_append.mp ((List.takeWhile_append_dropWhile (p := pyIsSpace) (l := l)) ▸ hc) with
      hc' | hc'
    · exact List.mem_takeWhile_imp hc'
    · exact h c (List.mem_reverse.mpr hc')
  · intro h c hc
    exact h c ((List.dropWhile_suffix pyIsSpace).subset (List.mem_reverse.mp hc))

/-- C9: the dry-run flag is decided by case-insensitively comparing the
`DRY_RUN` value to `true`: the flag is set exactly when the lowercasing of
the value (default `true` when unset) is the string `true`; in particular
`yes`, `1` and `True ` (trailing space) select live mode while `TRUE` and
`True` select dry-run mode. -/
theorem c9_dry_run_flag :
    (∀ v : String, dryRunFlag (some v) = true ↔ pyLower v = "true") ∧
    dryRunFlag none = true ∧
    dryRunFlag (some "TRUE") = true ∧
    dryRunFlag (some "True") = true ∧
    dryRunFlag (some "yes") = false ∧
    dryRunFlag (some "1") = false ∧
    dryRunFlag (some "True ") = false := by
  refine ⟨fun v => ?_, by decide, by decide, by decide, by decide, by decide, by decide⟩
  simp [dryRunFlag]

/-- C4: the labels line is split on commas with each piece trimmed of
surrounding whitespace, order preserved and without deduplication: the
input `bug, needs-review,perf` yields exactly
`["bug", "needs-review", "perf"]`, a duplicated label is kept twice, and
in general the list has one entry per comma-separated piece. -/
theorem c4_split_labels :
    splitLabels "bug, needs-review,perf" = ["bug", "needs-review", "perf"] ∧
    splitLabels "dup, dup" = ["dup", "dup"] ∧
    ∀ s : String, (splitLabels s).length = s.data.count ',' + 1 := by
  refine ⟨by decide, by decide, fun s => ?_⟩
  simp [splitLabels, pySplitL_length]

/-- C3: the range filter of `main` keeps exactly the records whose number
satisfies `start ≤ number ≤ end`, inclusive on both ends, and the kept
records form a sublist of the parsed sequence (same relative order). -/
theorem c3_filter_inclusive (startI endI : Int) (issues : List IssueRecord)
    (r : IssueRecord) :
    (r ∈ filterRange startI endI issues ↔
      r ∈ issues ∧ startI ≤ (r.number : Int) ∧ (r.number : Int) ≤ endI) ∧
    (filterRange startI endI issues).Sublist issues := by
  constructor
  · simp [filterRange, List.mem_filter]
  · exact List.filter_sublist _

/-- C3 witness: at the concrete bounds 2..5 and the record numbered 3. -/
theorem c3_filter_inclusive_witness :
    (rec3 ∈ filterRange 2 5 [rec3] ↔
      rec3 ∈ [rec3] ∧ (2 : Int) ≤ (rec3.number : Int) ∧ (rec3.number : Int) ≤ 5) ∧
    (filterRange 2 5 [rec3]).Sublist [rec3] :=
  c3_filter_inclusive 2 5 [rec3] rec3

/-- C1: with `DRY_RUN` unset or equal to `true`, a run performs no remote
call at all — the event trace contains no `get_repo`, no label listing,
no label creation and no issue creation — whatever the other environment
values, the document and the API oracle are. -/
theorem c1_dry_run_no_remote_calls (env : Env) (content : String) (api : Api)
    (h : env.dryRun? = none ∨ env.dryRun? = some "true") :
    (mainRun env content api).events.filter Event.isRemote = [] := by
  have hdry : dryRunFlag env.dryRun? = true := by
    rcases h with h | h <;> rw [h] <;> rfl
  unfold mainRun
  cases hs : pyInt (env.startIssue?.getD "1") with
  | none => rfl
  | some sI =>
    cases he : pyInt (env.endIssue?.getD "20") with
    | none => rfl
    | some eI =>
      rw [hdry]
      rfl

/-- C1 witness: empty environment (dry-run default), a concrete document
and the all-success API oracle. -/
theorem c1_dry_run_no_remote_calls_witness :
    (mainRun {} docTwo apiOk).events.filter Event.isRemote = [] :=
  c1_dry_run_no_remote_calls {} docTwo apiOk (Or.inl rfl)

/-- C10: when `START_ISSUE` or `END_ISSUE` is set to a string rejected by
`int`, the run raises an unhandled error before the input document is
read or parsed — the event trace is empty and no parsed count is ever
produced — in dry-run and live mode alike. -/
theorem c10_bad_int_crashes_before_read (env : Env) (content : String) (api : Api)
    (h : pyInt (env.startIssue?.getD "1") = none ∨
      pyInt (env.endIssue?.getD "20") = none) :
    (mainRun env content api).outcome = .pyError "invalid literal for int" ∧
    (mainRun env content api).events = [] ∧
    (mainRun env content api).parsed = none := by
  unfold mainRun
  cases hs : pyInt (env.startIssue?.getD "1") with
  | none => exact ⟨rfl, rfl, rfl⟩
  | some sI =>
    have he : pyInt (env.endIssue?.getD "20") = none := by
      rcases h with h | h
      · rw [hs] at h; cases h
      · exact h
    rw [he]
    exact ⟨rfl, rfl, rfl⟩

/-- C10 witness: `START_ISSUE` set to `abc` in a live-mode environment. -/
theorem c10_bad_int_crashes_before_read_witness :
    (mainRun { envLive with startIssue? := some "abc" } docTwo apiOk).outcome =
      .pyError "invalid literal for int" ∧
    (mainRun { envLive with startIssue? := some "abc" } docTwo apiOk).events = [] ∧
    (mainRun { envLive with startIssue? := some "abc" } docTwo apiOk).parsed = none :=
  c10_bad_int_crashes_before_read { envLive with startIssue? := some "abc" } docTwo apiOk
    (Or.inl (by decide))

/-- C6: in live mode, when `GITHUB_TOKEN` or `GITHUB_REPOSITORY` is
missing, the run exits with status 1; the only event is the input-file
read — no remote call is made and no issue is processed (no summary). -/
theorem c6_live_missing_config_exits (env : Env) (content : String) (api : Api)
    (hdry : dryRunFlag env.dryRun? = false)
    (hs : pyInt (env.startIssue?.getD "1") ≠ none)
    (he : pyInt (env.endIssue?.getD "20") ≠ none)
    (hmiss : env.token? = none ∨ env.repo? = none) :
    (mainRun env content api).outcome = .exitCode 1 ∧
    (mainRun env content api).events = [.readFile] ∧
    (mainRun env content api).summary = none := by
  rcases Option.ne_none_iff_exists'.mp hs with ⟨sI, hs'⟩
  rcases Option.ne_none_iff_exists'.mp he with ⟨eI, he'⟩
  unfold mainRun
  rw [hs', he', hdry]
  cases hft : pyFalsy env.token? with
  | true => exact ⟨rfl, rfl, rfl⟩
  | false =>
    have hrn : env.repo? = none := by
      rcases hmiss with hm | hm
      · rw [hm] at hft
        exact absurd hft (by decide)
      · exact hm
    rw [hrn]
    exact ⟨rfl, rfl, rfl⟩

/-- C6 witness: live mode with both credentials missing. -/
theorem c6_live_missing_config_exits_witness :
    (mainRun { dryRun? := some "false" } docTwo apiOk).outcome = .exitCode 1 ∧
    (mainRun { dryRun? := some "false" } docTwo apiOk).events = [.readFile] ∧
    (mainRun { dryRun? := some "false" } docTwo apiOk).summary = none :=
  c6_live_missing_config_exits { dryRun? := some "false" } docTwo apiOk rfl
    (by decide) (by decide) (Or.inl rfl)

theorem findAllAux_eq_nil (fuel : Nat) (cs : List Char)
    (h : ∀ i, matchIssue (cs.drop i) = none) : findAllAux fuel cs = [] := by
  induction fuel generalizing cs with
  | zero => rfl
  | succ n ih =>
    cases cs with
    | nil => rfl
    | cons c rest =>
      have h0 : matchIssue (c :: rest) = none := by simpa using h 0
      unfold findAllAux
      rw [h0]
      exact ih rest (fun i => by simpa using h (i + 1))

/-- C7: on a document in which no position matches the section pattern,
the parser returns the empty sequence and the run completes with exit
code 0, reporting zero parsed and zero filtered records, creating no
issue, and in live mode summarising zero created of zero. -/
theorem c7_zero_sections (env : Env) (content : String) (api : Api)
    (hnone : ∀ i, matchIssue (content.data.drop i) = none)
    (hs : pyInt (env.startIssue?.getD "1") ≠ none)
    (he : pyInt (env.endIssue?.getD "20") ≠ none)
    (hconf : dryRunFlag env.dryRun? = true ∨
      (pyFalsy env.token? = false ∧ pyFalsy env.repo? = false))
    (hget : api.getRepo = .ok ())
    (hlist : ∃ ls, api.listLabels = Except.ok ls) :
    parse_issues_file content = [] ∧
    (mainRun env content api).parsed = some 0 ∧
    (mainRun env content api).filtered = some 0 ∧
    (mainRun env content api).outcome = .exitCode 0 ∧
    (mainRun env content api).events.filter Event.isCreateIssue = [] ∧
    (dryRunFlag env.dryRun? = false → (mainRun env content api).summary = some (0, 0)) := by
  have hparse : parse_issues_file content = [] :=
    findAllAux_eq_nil content.data.length content.data hnone
  refine ⟨hparse, ?_⟩
  rcases Option.ne_none_iff_exists'.mp hs with ⟨sI, hs'⟩
  rcases Option.ne_none_iff_exists'.mp he with ⟨eI, he'⟩
  unfold mainRun
  rw [hs', he', hparse]
  cases hdry : dryRunFlag env.dryRun? with
  | true =>
    exact ⟨rfl, rfl, rfl, rfl, fun hf => Bool.noConfusion hf⟩
  | false =>
    rcases hconf with hd | ⟨ht, hr⟩
    · rw [hdry] at hd; cases hd
    · rcases hlist with ⟨ls, hl'⟩
      rw [ht, hr, hget, hl']
      exact ⟨rfl, rfl, rfl, rfl, fun _ => rfl⟩

/-- C7 witness: the empty document in the default (dry-run) environment. -/
theorem c7_zero_sections_witness :
    parse_issues_file "" = [] ∧
    (mainRun {} "" apiOk).parsed = some 0 ∧
    (mainRun {} "" apiOk).filtered = some 0 ∧
    (mainRun {} "" apiOk).outcome = .exitCode 0 ∧
    (mainRun {} "" apiOk).events.filter Event.isCreateIssue = [] ∧
    (dryRunFlag ({} : Env).dryRun? = false → (mainRun {} "" apiOk).summary = some (0, 0)) :=
  c7_zero_sections {} "" apiOk
    (fun i => by rw [show (("" : String).data.drop i) = [] by simp]; rfl)
    (by decide) (by decide) (Or.inl rfl) rfl ⟨[], rfl⟩

theorem ensureLabels_ok (api : Api) (h : ∀ l, api.createLabel l = Except.ok ())
    (labels : List String) : ∀ existing : List String,
    (∃ ex', (ensureLabels api existing labels).2 = Except.ok ex') ∧
    (∀ e ∈ (ensureLabels api existing labels).1, e.isCreateIssue = false) := by
  induction labels with
  | nil =>
    intro ex
    exact ⟨⟨ex, rfl⟩, by intro e he; cases he⟩
  | cons l ls ih =>
    intro ex
    cases hc : ex.contains l with
    | true =>
      have hm : l ∈ ex := by simpa using hc
      simpa [ensureLabels, hm] using ih ex
    | false =>
      have hm : ¬ (ex.contains l = true) := by rw [hc]; decide
      obtain ⟨⟨ex', hex⟩, hevs⟩ := ih (ex ++ [l])
      simp only [ensureLabels, if_neg hm, h l]
      refine ⟨⟨ex', hex⟩, ?_⟩
      intro e he
      rcases List.mem_cons.mp he with rfl | he'
      · rfl
      · exact hevs e he'

theorem processIssues_spec (api : Api) (h : ∀ l, api.createLabel l = Except.ok ())
    (issues : List IssueRecord) : ∀ existing : List String,
    (processIssues api existing issues).2 =
      Except.ok (issues.countP
        (fun i => exceptOk (api.createIssue i.title (create_issue_body i) i.labels))) ∧
    (processIssues api existing issues).1.filter Event.isCreateIssue =
      issues.map (fun i => Event.createIssue i.title (create_issue_body i) i.labels) := by
  induction issues with
  | nil => intro ex; exact ⟨rfl, rfl⟩
  | cons i rest ih =>
    intro ex
    obtain ⟨⟨ex', hex⟩, hevs⟩ := ensureLabels_ok api h i.labels ex
    have hfil : (ensureLabels api ex i.labels).1.filter Event.isCreateIssue = [] := by
      rw [List.filter_eq_nil_iff]
      intro e he
      simp [hevs e he]
    obtain ⟨ih1, ih2⟩ := ih ex'
    simp only [processIssues, hex]
    cases hci : api.createIssue i.title (create_issue_body i) i.labels with
    | ok v =>
      constructor
      · rw [ih1]
        simp [List.countP_cons, hci, exceptOk, Except.map]
      · rw [List.filter_append, hfil]
        simp [ih2, Event.isCreateIssue]
    | error e =>
      constructor
      · rw [ih1]
        simp [List.countP_cons, hci, exceptOk, Except.map]
      · rw [List.filter_append, hfil]
        simp [ih2, Event.isCreateIssue]

/-- C5: in live mode with both credentials set and non-empty and working
label calls, every filtered record gets
an issue-creation call, in order, whether or not earlier creation calls
raised: an error is caught and the loop continues; the run exits normally
and the final summary reports the number of successful creations against
the number of filtered records. -/
theorem c5_creation_error_caught (env : Env) (content : String) (api : Api)
    (sI eI : Int)
    (hdry : dryRunFlag env.dryRun? = false)
    (hs : pyInt (env.startIssue?.getD "1") = some sI)
    (he : pyInt (env.endIssue?.getD "20") = some eI)
    (ht : pyFalsy env.token? = false) (hr : pyFalsy env.repo? = false)
    (hget : api.getRepo = .ok ())
    (hlist : ∃ ls, api.listLabels = Except.ok ls)
    (hlab : ∀ l, api.createLabel l = Except.ok ()) :
    (mainRun env content api).outcome = .exitCode 0 ∧
    (mainRun env content api).summary = some
      ((filterRange sI eI (parse_issues_file content)).countP
          (fun i => exceptOk (api.createIssue i.title (create_issue_body i) i.labels)),
        (filterRange sI eI (parse_issues_file content)).length) ∧
    (mainRun env content api).events.filter Event.isCreateIssue =
      (filterRange sI eI (parse_issues_file content)).map
        (fun i => Event.createIssue i.title (create_issue_body i) i.labels) := by
  rcases hlist with ⟨ls, hl'⟩
  obtain ⟨hp2, hp1⟩ :=
    processIssues_spec api hlab (filterRange sI eI (parse_issues_file content)) ls
  unfold mainRun
  rw [hs, he, hdry, ht, hr, hget, hl']
  simp only [Bool.false_eq_true, if_false]
  rw [hp2]
  refine ⟨rfl, rfl, ?_⟩
  simp only [List.filter_cons]
  simp [Event.isCreateIssue, hp1]

/-- C5 witness: two filtered records with titles `T1` and `T2` and an API
on which creating `T2` raises; the summary reports 1 created of 2. -/
theorem c5_creation_error_caught_witness :
    ((mainRun envLive docTwo apiFailT2).outcome = .exitCode 0 ∧
      (mainRun envLive docTwo apiFailT2).summary = some
        ((filterRange 1 20 (parse_issues_file docTwo)).countP
            (fun i => exceptOk (apiFailT2.createIssue i.title (create_issue_body i) i.labels)),
          (filterRange 1 20 (parse_issues_file docTwo)).length) ∧
      (mainRun envLive docTwo apiFailT2).events.filter Event.isCreateIssue =
        (filterRange 1 20 (parse_issues_file docTwo)).map
          (fun i => Event.createIssue i.title (create_issue_body i) i.labels)) ∧
    (mainRun envLive docTwo apiFailT2).summary = some (1, 2) := by
  refine ⟨c5_creation_error_caught envLive docTwo apiFailT2 1 20 rfl (by decide) (by decide)
    (by decide) (by decide) rfl ⟨[], rfl⟩ (fun l => rfl), ?_⟩
  decide

theorem mem_findAllAux (fuel : Nat) : ∀ (cs : List Char) (r : IssueRecord),
    r ∈ findAllAux fuel cs → ∃ g : Groups, r = recordOfGroups g := by
  induction fuel with
  | zero =>
    intro cs r h
    simp [findAllAux] at h
  | succ n ih =>
    intro cs r h
    cases cs with
    | nil => simp [findAllAux] at h
    | cons c rest =>
      unfold findAllAux at h
      cases hm : matchIssue (c :: rest) with
      | none =>
        rw [hm] at h
        exact ih rest r h
      | some p =>
        rcases p with ⟨g, after⟩
        rw [hm] at h
        rcases List.mem_cons.mp h with h | h
        · exact ⟨g, h⟩
        · exact ih after r h

/-- Every record the parser produces is built by `recordOfGroups` from
some capture groups. -/
theorem mem_parse_record (content : String) (r : IssueRecord)
    (hr : r ∈ parse_issues_file content) : ∃ g : Groups, r = recordOfGroups g :=
  mem_findAllAux content.data.length content.data r hr

/-- C8 counterexample: on the document whose labels line is `bug,,`, the
parser produces a record with an empty labels entry, refuting that every
entry of a parsed labels list is non-empty. -/
theorem c8_counterexample :
    ¬ (∀ r ∈ parse_issues_file docEmptyLabels, ∀ l ∈ r.labels, l ≠ "") := by
  decide

/-- C8 amended: every labels entry of a parsed record is the
whitespace-trim of one comma-separated piece of the record's labels line,
and every entry whose piece contains a non-whitespace character is
non-empty (only all-whitespace pieces, e.g. between consecutive commas,
give empty entries). -/
theorem c8_labels_amended (content : String) (r : IssueRecord)
    (hr : r ∈ parse_issues_file content) :
    ∃ s : String, r.labels = splitLabels s ∧
      ∀ p ∈ pySplitL ',' s.data,
        ¬ (∀ c ∈ p, pyIsSpace c) → (⟨pyStripL p⟩ : String) ≠ "" := by
  obtain ⟨g, rfl⟩ := mem_parse_record content r hr
  refine ⟨⟨pyStripL g.labelsStr⟩, rfl, ?_⟩
  intro p _ hnw hempty
  apply hnw
  have hnil : pyStripL p = [] := congrArg String.data hempty
  exact (pyStripL_eq_nil_iff p).mp hnil

/-- C8 amended witness: the first record of the two-section document. -/
theorem c8_labels_amended_witness :
    ∃ s : String,
      (IssueRecord.mk 1 "a" "T1" "d1" "g1" "f1" "c1" ["l1"] "e1").labels = splitLabels s ∧
      ∀ p ∈ pySplitL ',' s.data,
        ¬ (∀ c ∈ p, pyIsSpace c) → (⟨pyStripL p⟩ : String) ≠ "" :=
  c8_labels_amended docTwo (IssueRecord.mk 1 "a" "T1" "d1" "g1" "f1" "c1" ["l1"] "e1")
    (by decide)

/-- Data of a string built from an explicit character list. -/
theorem data_mk (l : List Char) : (String.mk l).data = l := rfl

/-- Prepending preserves being an infix. -/
theorem infix_cons_right {w t : List Char} (s : List Char) (h : w <:+: t) :
    w <:+: s ++ t := by
  rcases h with ⟨a, b, hab⟩
  exact ⟨s ++ a, b, by rw [← hab]; simp [List.append_assoc]⟩

/-- Appending strings concatenates their character lists. -/
theorem str_data_append (s t : String) : (s ++ t).data = s.data ++ t.data := rfl

/-- C2 counterexample: the block whose description field is ` Z` (leading
space) matches the full section grammar, yet the rendered body of its
parsed record does not contain ` Z`: the parser strips the captured field,
so the original text is not reproduced verbatim. -/
theorem c2_counterexample :
    ((matchIssue blockSpacedDesc.data).map (fun p => p.1.description) = some " Z".data) ∧
    ((matchIssue blockSpacedDesc.data).map (fun p =>
        decide (p.1.description <:+: (create_issue_body (recordOfGroups p.1)).data)) =
      some false) := by
  constructor
  · decide
  · decide

/-- C2 amended: for every section block matching the full grammar whose
captured description, goals, files and acceptance fields carry no leading
or trailing whitespace, parsing and rendering reproduces each of those
fields verbatim inside the rendered body. -/
theorem c2_roundtrip_amended (cs : List Char) (g : Groups) (rest : List Char)
    (hm : matchIssue cs = some (g, rest))
    (hd : pyStripL g.description = g.description)
    (hg : pyStripL g.goals = g.goals)
    (hf : pyStripL g.files = g.files)
    (ha : pyStripL g.acceptance = g.acceptance) :
    g.description <:+: (create_issue_body (recordOfGroups g)).data ∧
    g.goals <:+: (create_issue_body (recordOfGroups g)).data ∧
    g.files <:+: (create_issue_body (recordOfGroups g)).data ∧
    g.acceptance <:+: (create_issue_body (recordOfGroups g)).data := by
  have hdata : (create_issue_body (recordOfGroups g)).data =
      "## Description\n\n".data ++ g.description ++
        ("\n\n## Goals\n\n".data ++ g.goals ++
          ("\n\n## Files to modify\n\n".data ++ g.files ++
            ("\n\n## Acceptance Criteria\n\n".data ++ g.acceptance ++
              ("\n\n---\n**Estimated Effort**: ".data ++ pyStripL g.effort ++
                "\n**Related to**: Code Review 2025-10-24\n".data)))) := by
    simp only [create_issue_body, recordOfGroups, str_data_append, data_mk, hd, hg, hf, ha,
      List.append_assoc]
  refine ⟨?_, ?_, ?_, ?_⟩ <;> rw [hdata]
  · exact ⟨_, _, rfl⟩
  · exact infix_cons_right _ ⟨_, _, rfl⟩
  · exact infix_cons_right _ (infix_cons_right _ ⟨_, _, rfl⟩)
  · exact infix_cons_right _ (infix_cons_right _ (infix_cons_right _ ⟨_, _, rfl⟩))

/-- C2 amended witness: the fully-trimmed block `blockGood`, whose groups
are `groupsGood`. -/
theorem c2_roundtrip_amended_witness :
    groupsGood.description <:+: (create_issue_body (recordOfGroups groupsGood)).data ∧
    groupsGood.goals <:+: (create_issue_body (recordOfGroups groupsGood)).data ∧
    groupsGood.files <:+: (create_issue_body (recordOfGroups groupsGood)).data ∧
    groupsGood.acceptance <:+: (create_issue_body (recordOfGroups groupsGood)).data :=
  c2_roundtrip_amended blockGood.data groupsGood [] (by decide)
    (by decide) (by decide) (by decide) (by decide)

end CreateIssues
